import Mathlib

/-!
Verification of the script-execution subsystem of the `disk_report` repository
(`src/bash_executor.py`), as a shallow embedding in Lean 4.

Text is modelled as `List Char` (Python `str`, restricted to the ASCII
behaviour of `str.strip`, `\w` and `\s`, which is what every claim exercises).
Stateful operations are modelled as explicit state passing on a `BashExecutor`
record; the behaviour of the operating system (child process outcome, signal
delivery) is an explicit oracle argument, and the externally visible side
effects (temp-file lifecycle, subprocess spawning, signals sent) are returned
as an explicit trace.
-/

/-- Coerce a string literal to the `List Char` text model. -/
def str (s : String) : List Char := s.data

/-- Model of Python `str.isspace` characters relevant to `str.strip()` /
regex `\s` (ASCII fragment): space, tab, newline, carriage return,
vertical tab, form feed. -/
def isPySpace (c : Char) : Bool :=
  c == ' ' || c == '\t' || c == '\n' || c == '\r' || c == Char.ofNat 11 || c == Char.ofNat 12

/-- Model of Python `str.strip()`: remove leading and trailing whitespace. -/
def pyStrip (s : List Char) : List Char :=
  ((s.dropWhile isPySpace).reverse.dropWhile isPySpace).reverse

/-- Model of Python `s.split('\n')`: split on every newline, keeping empty
pieces; the result is always non-empty. -/
def splitNl : List Char → List (List Char)
  | [] => [[]]
  | c :: rest =>
    let r := splitNl rest
    if c = '\n' then [] :: r
    else
      match r with
      | [] => [[c]]
      | h :: t => (c :: h) :: t

/-- Model of Python `'\n'.join(pieces)`. -/
def joinNl : List (List Char) → List Char
  | [] => []
  | [l] => l
  | l :: ls => l ++ '\n' :: joinNl ls

/-- Model of `'\n'.join(s.split('\n')[1:])`, the directive-removal step used
by the source (and by the spec's `prepare_body_without_directive`). -/
def removeFirstLine (s : List Char) : List Char :=
  joinNl ((splitNl s).drop 1)

/-- Number of (possibly overlapping) occurrences of `pat` as a contiguous
substring of `s`. -/
def countSubstr (pat : List Char) : List Char → Nat
  | [] => 0
  | c :: rest =>
    (if List.isPrefixOf pat (c :: rest) then 1 else 0) + countSubstr pat rest

/-! ## Data model (`ExecutionResult`, `BashExecutor`) -/

/-- Model of the `ExecutionResult` dataclass: field names follow the source
(`returncode`, `stdout`, `stderr`, `execution_time`, `timeout`).
`execution_time` (a float in the source) is modelled as an abstract `Nat`
supplied by the clock oracle; no claim depends on its value. -/
structure ExecutionResult where
  returncode : Int
  stdout : List Char
  stderr : List Char
  execution_time : Nat
  timeout : Bool
deriving DecidableEq, Repr

/-- Model of the `BashExecutor` controller state: the configured default
timeout and the single mutable `current_process` handle (a pid when a run is
in flight). The `working_dir` field of the source is omitted: no claim
depends on it. -/
structure BashExecutor where
  timeout : Int
  current_process : Option Nat
deriving DecidableEq, Repr

/-- Signals the runner can send to the child process group. -/
inductive Signal where
  | SIGTERM
  | SIGKILL
  | SIGINT
deriving DecidableEq, Repr

/-- Externally visible actions of the runner towards the child process
group, in order. -/
inductive RunnerAction where
  | sendSignal (sig : Signal)
  | waitGrace (seconds : Nat)
  | waitUnconditionally
deriving DecidableEq, Repr

/-- Oracle describing how the spawned child process behaves inside
`_run_script`:
  * `spawnError desc`: `subprocess.Popen` raises an exception whose string
    form is `desc` (interpreter missing, permission denied, bad cwd, ...);
  * `completes pid code out err`: `communicate(timeout=...)` returns within
    the timeout with exit status `code` and captured output;
  * `timesOut pid sigtermDelivered diesInGrace`: `communicate` raises
    `TimeoutExpired`; `sigtermDelivered` is false when the first `os.killpg`
    itself raises (process group already gone), `diesInGrace` tells whether
    the five-second `wait` sees the process exit before escalation. -/
inductive SpawnOutcome where
  | spawnError (desc : List Char)
  | completes (pid : Nat) (code : Int) (out err : List Char)
  | timesOut (pid : Nat) (sigtermDelivered : Bool) (diesInGrace : Bool)
deriving DecidableEq, Repr

/-- The stderr text produced on the timeout path:
`f"Script execution timed out after {timeout} seconds"`. -/
def timeoutMessage (t : Int) : List Char :=
  str "Script execution timed out after " ++ (toString t).data ++ str " seconds"

/-- Model of `BashExecutor._run_script`: spawn the child in a fresh process
group, wait bounded by `timeout`, and encode every expected failure mode in
the returned `ExecutionResult` (the function has no error channel because the
source catches every exception). Returns the result, the post-state (the
`finally` block clears `current_process` on every path), and the ordered list
of signal/wait actions taken against the process group. `elapsed` is the
wall-clock oracle for `time.time() - start_time`. -/
def run_script (st : BashExecutor) (timeout : Int) (beh : SpawnOutcome) (elapsed : Nat) :
    ExecutionResult × BashExecutor × List RunnerAction :=
  match beh with
  | .spawnError desc =>
      -- `except Exception as e` branch; `finally` clears the handle
      (⟨-1, [], str "Execution error: " ++ desc, elapsed, false⟩,
       { st with current_process := none }, [])
  | .completes pid code out err =>
      -- handle set to the Popen object for the duration of the run, then
      -- cleared by `finally`
      let running := { st with current_process := some pid }
      (⟨code, out, err, elapsed, false⟩,
       { running with current_process := none }, [])
  | .timesOut pid delivered dies =>
      let running := { st with current_process := some pid }
      -- kill the process group: SIGTERM, grace wait of 5 seconds, then
      -- SIGKILL plus unconditional wait if still alive; a failure of the
      -- first killpg (process already gone) skips the whole block silently
      let acts :=
        if delivered then
          [RunnerAction.sendSignal .SIGTERM, RunnerAction.waitGrace 5] ++
            (if dies then [] else [RunnerAction.sendSignal .SIGKILL, RunnerAction.waitUnconditionally])
        else []
      (⟨-1, [], timeoutMessage timeout, elapsed, true⟩,
       { running with current_process := none }, acts)

/-- Safety header injected by `_prepare_script`, line by line. -/
def safety_header : List (List Char) :=
  [str "#!/bin/bash",
   str "",
   str "# Script execution safety measures",
   str "set -euo pipefail  # Exit on error, undefined vars, pipe failures",
   str "",
   str "# Function to handle cleanup on exit",
   str "cleanup() \x7b",
   str "    echo \"Script execution finished\"",
   str "\x7d",
   str "trap cleanup EXIT",
   str "",
   str "# Script content begins here"]

/-- Model of `BashExecutor._prepare_script`. The source first computes a
`lines` list with a default shebang inserted, but that list is never used
(dead code), so it does not appear here. The live logic: trim the content,
drop its first line when the trimmed content starts with `"#!/"`, and append
it after the safety header with one blank line in between. -/
def prepare_script (content : List Char) : List Char :=
  let script_content := pyStrip content
  let script_content :=
    if List.isPrefixOf (str "#!/") script_content then
      joinNl ((splitNl script_content).drop 1)
    else script_content
  joinNl (safety_header ++ [[], script_content])

/-- Trace of externally visible effects of one `execute` call. -/
structure ExecTrace where
  tempWritten : Option (List Char)
  tempDeleted : Bool
  spawnAttempted : Bool
  usedTimeout : Option Int
  actions : List RunnerAction
deriving DecidableEq, Repr

/-- The only exception `execute` raises itself:
`ValueError("Script content cannot be empty")`. -/
inductive ExecError where
  | invalidInput
deriving DecidableEq, Repr

/-- Model of `timeout = timeout or self.timeout` (line 36): Python `or`
tests truthiness, so both `None` and `0` fall back to the configured
default. -/
def effectiveTimeout : Option Int → Int → Int
  | none, cfg => cfg
  | some t, cfg => if t = 0 then cfg else t

/-- Model of `BashExecutor.execute`: validate the content, resolve the
effective timeout, write the wrapped script to a temp file, run it, and
delete the temp file in a `finally` block (deletion failure swallowed,
recorded here as `tempDeleted = true` since the attempt always happens). -/
def execute (st : BashExecutor) (script_content : List Char) (timeoutArg : Option Int)
    (beh : SpawnOutcome) (elapsed : Nat) :
    Except ExecError ExecutionResult × BashExecutor × ExecTrace :=
  if pyStrip script_content = [] then
    (.error .invalidInput, st, ⟨none, false, false, none, []⟩)
  else
    let timeout := effectiveTimeout timeoutArg st.timeout
    let prepared := prepare_script script_content
    let out := run_script st timeout beh elapsed
    (.ok out.1, out.2.1, ⟨some prepared, true, true, some timeout, out.2.2⟩)

/-- Model of `BashExecutor.execute_command`: delegates to `execute`. -/
def execute_command (st : BashExecutor) (command : List Char) (timeoutArg : Option Int)
    (beh : SpawnOutcome) (elapsed : Nat) :
    Except ExecError ExecutionResult × BashExecutor × ExecTrace :=
  execute st command timeoutArg beh elapsed

/-- Oracle for a single `os.killpg` call. -/
inductive SignalSendResult where
  | delivered
  | processGone
deriving DecidableEq, Repr

/-- Model of `BashExecutor.interrupt_execution`: send SIGINT to the child's
process group when a process is recorded; the `try/except` swallows
`OSError`/`ProcessLookupError`, so the function never raises (hence the
`Except` channel is provably always `.ok`) and never touches the state. -/
def interrupt_execution (st : BashExecutor) (os : SignalSendResult) :
    Except Unit (BashExecutor × List RunnerAction) :=
  match st.current_process with
  | none => .ok (st, [])
  | some _ =>
    match os with
    | .delivered => .ok (st, [RunnerAction.sendSignal .SIGINT])
    | .processGone => .ok (st, [])

/-- Oracle for the `subprocess.run(['/bin/bash', '-n', path], ...)` syntax
check inside `validate_script_syntax`. -/
inductive SyntaxCheckOutcome where
  | exits (code : Int) (out err : List Char)
  | timedOutCheck
  | raises (desc : List Char)
deriving DecidableEq, Repr

/-- Trace of externally visible effects of one syntax-validation call. -/
structure ValidateTrace where
  tempWritten : Option (List Char)
  tempDeleted : Bool
  checkInvoked : Bool
  checkTimeoutLimit : Option Nat
deriving DecidableEq, Repr

/-- Model of `BashExecutor.validate_script_syntax`: write the raw content
(unwrapped) to a temp file, run `bash -n` with a 10 second timeout, and
always delete the temp file in the `finally` block. The first component of
the result is the `(valid, message)` pair. -/
def validate_script (script_content : List Char) (beh : SyntaxCheckOutcome) :
    (Bool × List Char) × ValidateTrace :=
  if pyStrip script_content = [] then
    ((false, str "Script content is empty"), ⟨none, false, false, none⟩)
  else
    let tr : ValidateTrace := ⟨some script_content, true, true, some 10⟩
    match beh with
    | .exits code _ err =>
        if code = 0 then ((true, str "Syntax is valid"), tr)
        else
          ((false, if pyStrip err = [] then str "Syntax error detected" else pyStrip err), tr)
    | .timedOutCheck => ((false, str "Syntax check timed out"), tr)
    | .raises desc => ((false, str "Syntax check failed: " ++ desc), tr)

/-! ## Dependency scan (`get_script_dependencies`) -/

/-- Model of regex `\w` (ASCII fragment): letters, digits, underscore. -/
def isRegexWordChar (c : Char) : Bool :=
  c.isAlphanum || c == '_'

/-- Model of the character class `[\w-]` used by every capture group. -/
def isWordDashChar (c : Char) : Bool :=
  isRegexWordChar c || c == '-'

/-- Scanner for `re.findall(r'\b([\w-]+)\s+', s)`: at every word boundary,
greedily take a run of `[\w-]` characters followed by at least one
whitespace character; matches are found left to right and do not overlap
(the scan resumes after the consumed whitespace). `prevIsWord` carries the
word-ness of the character before the current position (false at the start
of the string), which decides the `\b` boundary test. -/
def scanBareWords : Nat → Bool → List Char → List (List Char)
  | 0, _, _ => []
  | _ + 1, _, [] => []
  | fuel + 1, prevIsWord, c :: rest =>
    if prevIsWord != isRegexWordChar c then
      let grp := List.takeWhile isWordDashChar (c :: rest)
      let afterGrp := List.drop grp.length (c :: rest)
      let ws := List.takeWhile isPySpace afterGrp
      if grp.isEmpty || ws.isEmpty then
        scanBareWords fuel (isRegexWordChar c) rest
      else
        grp :: scanBareWords fuel false (List.drop ws.length afterGrp)
    else
      scanBareWords fuel (isRegexWordChar c) rest

/-- Head match for `\s+([\w-]+)`: a non-empty whitespace run, then a
non-empty `[\w-]` run (the capture group); returns the group and the
remainder after the match. -/
def matchWsThenWord (s : List Char) : Option (List Char × List Char) :=
  let ws := s.takeWhile isPySpace
  if ws.isEmpty then none
  else
    let afterWs := s.drop ws.length
    let grp := afterWs.takeWhile isWordDashChar
    if grp.isEmpty then none else some (grp, afterWs.drop grp.length)

/-- Head match for `which\s+([\w-]+)`. -/
def matchWhichAt (s : List Char) : Option (List Char × List Char) :=
  if List.isPrefixOf (str "which") s then matchWsThenWord (s.drop 5) else none

/-- Head match for `command\s+-v\s+([\w-]+)`. -/
def matchCommandVAt (s : List Char) : Option (List Char × List Char) :=
  if List.isPrefixOf (str "command") s then
    let s1 := s.drop 7
    let ws1 := s1.takeWhile isPySpace
    if ws1.isEmpty then none
    else
      let s2 := s1.drop ws1.length
      if List.isPrefixOf (str "-v") s2 then matchWsThenWord (s2.drop 2) else none
  else none

/-- Head match for `\$\(([\w-]+)`. -/
def matchDollarParenAt (s : List Char) : Option (List Char × List Char) :=
  if List.isPrefixOf (str "$(") s then
    let grp := (s.drop 2).takeWhile isWordDashChar
    if grp.isEmpty then none else some (grp, (s.drop 2).drop grp.length)
  else none

/-- Head match for the backtick command-substitution pattern (a backtick
character, written here by code point, followed by the `[\w-]+` group). -/
def matchBacktickAt (s : List Char) : Option (List Char × List Char) :=
  match s with
  | [] => none
  | c :: rest =>
    if c = Char.ofNat 96 then
      let grp := rest.takeWhile isWordDashChar
      if grp.isEmpty then none else some (grp, rest.drop grp.length)
    else none

/-- Generic left-to-right non-overlapping `findall` scanner: try `matchAt`
at every position; on success record the group and resume after the
match. -/
def scanWith (matchAt : List Char → Option (List Char × List Char)) :
    Nat → List Char → List (List Char)
  | 0, _ => []
  | _ + 1, [] => []
  | fuel + 1, c :: rest =>
    match matchAt (c :: rest) with
    | some (grp, remaining) => grp :: scanWith matchAt fuel remaining
    | none => scanWith matchAt fuel rest

/-- All capture-group matches of the five `command_patterns` regexes of
`get_script_dependencies`, in pattern order. -/
def command_pattern_matches (script_content : List Char) : List (List Char) :=
  let fuel := script_content.length + 1
  scanBareWords fuel false script_content
    ++ scanWith matchWhichAt fuel script_content
    ++ scanWith matchCommandVAt fuel script_content
    ++ scanWith matchDollarParenAt fuel script_content
    ++ scanWith matchBacktickAt fuel script_content

/-- The fixed keyword/builtin exclusion list of `get_script_dependencies`. -/
def shell_keywords : List (List Char) :=
  [str "if", str "then", str "else", str "fi", str "for", str "while",
   str "do", str "done", str "case", str "esac", str "function",
   str "return", str "exit", str "echo", str "printf"]

/-- Model of `BashExecutor.get_script_dependencies`: collect every match of
the fixed pattern table into a set (modelled as `dedup` of the match list),
drop known keywords/builtins, and return `sorted(list(...))` (lexicographic
string order). -/
def get_script_dependencies (script_content : List Char) : List (List Char) :=
  let deps := ((command_pattern_matches script_content).filter
      (fun m => !(shell_keywords.contains m))).dedup
  List.insertionSort (· ≤ ·) deps

/-! ## Claims -/

/-- C1: when the child exceeds the timeout, `_run_script` sends SIGTERM to
the whole process group, waits up to the fixed 5-second grace period,
escalates to SIGKILL of the group if the process is still alive, and returns
(does not raise — the model has no error channel because the source catches
every exception) an `ExecutionResult` with `returncode = -1`, empty stdout,
`stderr = "Script execution timed out after <N> seconds"` and
`timeout = true`; moreover `timeout = true` implies the sentinel exit code
and the timeout message in stderr, for every child behaviour. -/
theorem c1_run_script_timeout_contract (st : BashExecutor) (timeout : Int)
    (pid : Nat) (delivered dies : Bool) (elapsed : Nat) :
    (run_script st timeout (.timesOut pid delivered dies) elapsed).1 =
      ⟨-1, [], timeoutMessage timeout, elapsed, true⟩ ∧
    (run_script st timeout (.timesOut pid delivered dies) elapsed).2.2 =
      (if delivered then
        [RunnerAction.sendSignal .SIGTERM, RunnerAction.waitGrace 5] ++
          (if dies then []
           else [RunnerAction.sendSignal .SIGKILL, RunnerAction.waitUnconditionally])
      else []) ∧
    (∀ beh : SpawnOutcome, (run_script st timeout beh elapsed).1.timeout = true →
      (run_script st timeout beh elapsed).1.returncode = -1 ∧
      (run_script st timeout beh elapsed).1.stderr = timeoutMessage timeout) := by
  refine ⟨rfl, rfl, ?_⟩
  intro beh h
  cases beh <;> simp_all [run_script]

/-- Witness for C1 at a concrete timed-out run. -/
theorem c1_run_script_timeout_contract_witness :
    (run_script ⟨30, none⟩ 7 (.timesOut 99 true false) 2).1.returncode = -1 ∧
    (run_script ⟨30, none⟩ 7 (.timesOut 99 true false) 2).1.stderr = timeoutMessage 7 :=
  (c1_run_script_timeout_contract ⟨30, none⟩ 7 99 true false 2).2.2
    (.timesOut 99 true false) (by decide)

/-- C2: for blank (empty or whitespace-only) content, `execute` (and
`execute_command`, which delegates to it) fails with the input-validation
error before creating a temp file or attempting a spawn: the state is
untouched and the trace records no effect at all. -/
theorem c2_execute_rejects_blank_content (st : BashExecutor) (c : List Char)
    (targ : Option Int) (beh : SpawnOutcome) (elapsed : Nat)
    (h : pyStrip c = []) :
    execute st c targ beh elapsed =
      (.error .invalidInput, st, ⟨none, false, false, none, []⟩) ∧
    execute_command st c targ beh elapsed =
      (.error .invalidInput, st, ⟨none, false, false, none, []⟩) := by
  constructor <;> simp [execute, execute_command, h]

/-- Witness for C2 at whitespace-only content. -/
theorem c2_execute_rejects_blank_content_witness :
    execute ⟨30, none⟩ (str "   ") none (.completes 1 0 [] []) 0 =
      (.error .invalidInput, ⟨30, none⟩, ⟨none, false, false, none, []⟩) :=
  (c2_execute_rejects_blank_content ⟨30, none⟩ (str "   ") none
    (.completes 1 0 [] []) 0 (by decide)).1

/-- C5: `current_process` is `none` again when `execute` returns, on every
path (validation failure, normal completion, timeout, spawn exception),
provided it was `none` when the call started — the single-flight handle
invariant. -/
theorem c5_handle_cleared_on_return (st : BashExecutor) (c : List Char)
    (targ : Option Int) (beh : SpawnOutcome) (elapsed : Nat)
    (h : st.current_process = none) :
    (execute st c targ beh elapsed).2.1.current_process = none := by
  by_cases hc : pyStrip c = []
  · simp [execute, hc, h]
  · cases beh <;> simp [execute, hc, run_script]

/-- Witness for C5 at a concrete run. -/
theorem c5_handle_cleared_on_return_witness :
    (execute ⟨30, none⟩ (str "echo hi") none (.timesOut 4 true true) 1).2.1.current_process
      = none :=
  c5_handle_cleared_on_return ⟨30, none⟩ (str "echo hi") none
    (.timesOut 4 true true) 1 rfl

/-- C6: for non-blank content, `execute` never raises, whatever the child
behaviour (spawn failure, timeout, any exit code): the result is always
`.ok`, and a spawn failure is encoded as `returncode = -1` with
`stderr = "Execution error: <description>"` and `timeout = false`. -/
theorem c6_execute_encodes_failures (st : BashExecutor) (c : List Char)
    (targ : Option Int) (beh : SpawnOutcome) (elapsed : Nat)
    (h : pyStrip c ≠ []) :
    (∃ r, (execute st c targ beh elapsed).1 = .ok r) ∧
    (∀ desc, beh = .spawnError desc →
      (execute st c targ beh elapsed).1 =
        .ok ⟨-1, [], str "Execution error: " ++ desc, elapsed, false⟩) := by
  constructor
  · cases beh with
    | spawnError desc =>
        exact ⟨⟨-1, [], str "Execution error: " ++ desc, elapsed, false⟩,
          by simp [execute, h, run_script]⟩
    | completes pid code out err =>
        exact ⟨⟨code, out, err, elapsed, false⟩, by simp [execute, h, run_script]⟩
    | timesOut pid delivered dies =>
        exact ⟨⟨-1, [], timeoutMessage (effectiveTimeout targ st.timeout), elapsed, true⟩,
          by simp [execute, h, run_script]⟩
  · intro desc hb
    subst hb
    simp [execute, h, run_script]

/-- Witness for C6 at a concrete spawn failure. -/
theorem c6_execute_encodes_failures_witness :
    (execute ⟨30, none⟩ (str "echo hi") none (.spawnError (str "No such file")) 0).1 =
      .ok ⟨-1, [], str "Execution error: " ++ str "No such file", 0, false⟩ :=
  (c6_execute_encodes_failures ⟨30, none⟩ (str "echo hi") none
    (.spawnError (str "No such file")) 0 (by decide)).2 (str "No such file") rfl

/-- C7: `interrupt_execution` never raises and never changes controller
state; with no recorded process it is a complete no-op, and when the OS
reports the process as already gone the failure is swallowed and again
nothing is sent. -/
theorem c7_interrupt_is_safe_noop (st : BashExecutor) (os : SignalSendResult) :
    interrupt_execution st os =
      .ok (st,
        match st.current_process, os with
        | some _, .delivered => [RunnerAction.sendSignal .SIGINT]
        | _, _ => []) := by
  cases h : st.current_process <;> cases os <;> simp [interrupt_execution, h]

/-- C10: `timeout or self.timeout` tests truthiness, so both an omitted
timeout (`None`) and an explicit `0` silently fall back to the configured
default; a zero effective timeout is impossible unless the default itself is
zero, and `execute` records the configured default as the timeout it used in
both cases. -/
theorem c10_timeout_fallback_truthiness (cfg : Int) :
    effectiveTimeout none cfg = cfg ∧
    effectiveTimeout (some 0) cfg = cfg ∧
    (∀ arg : Option Int, effectiveTimeout arg cfg = 0 → cfg = 0) ∧
    (∀ (st : BashExecutor) (c : List Char) (beh : SpawnOutcome) (elapsed : Nat),
      pyStrip c ≠ [] →
      (execute st c none beh elapsed).2.2.usedTimeout = some st.timeout ∧
      (execute st c (some 0) beh elapsed).2.2.usedTimeout = some st.timeout) := by
  refine ⟨rfl, rfl, ?_, ?_⟩
  · intro arg h
    match arg with
    | none => exact h
    | some t =>
      by_cases ht : t = 0
      · simpa [effectiveTimeout, ht] using h
      · simp [effectiveTimeout, ht] at h
  · intro st c beh elapsed h
    constructor <;> simp [execute, h, effectiveTimeout]

/-- Witness for C10 at concrete arguments. -/
theorem c10_timeout_fallback_truthiness_witness :
    effectiveTimeout none 30 = 30 ∧
    effectiveTimeout (some 0) 30 = 30 ∧
    (execute ⟨30, none⟩ (str "echo hi") none (.completes 5 0 [] []) 1).2.2.usedTimeout
      = some 30 := by
  refine ⟨(c10_timeout_fallback_truthiness 30).1,
    (c10_timeout_fallback_truthiness 30).2.1, ?_⟩
  exact ((c10_timeout_fallback_truthiness 30).2.2.2 ⟨30, none⟩ (str "echo hi")
    (.completes 5 0 [] []) 1 (by decide)).1

/-- C9: `get_script_dependencies` returns a duplicate-free, ascending-sorted
list, and its members are exactly the capture-group matches of the fixed
pattern table minus the fixed keyword/builtin list. -/
theorem c9_dependencies_sorted_nodup_filtered (content : List Char) :
    List.Sorted (· ≤ ·) (get_script_dependencies content) ∧
    (get_script_dependencies content).Nodup ∧
    (∀ x : List Char, x ∈ get_script_dependencies content ↔
      (x ∈ command_pattern_matches content ∧ x ∉ shell_keywords)) := by
  refine ⟨List.sorted_insertionSort _ _, ?_, ?_⟩
  · exact (List.perm_insertionSort _ _).nodup_iff.mpr (List.nodup_dedup _)
  · intro x
    show x ∈ List.insertionSort _ _ ↔ _
    rw [(List.perm_insertionSort _ _).mem_iff, List.mem_dedup, List.mem_filter]
    simp [List.contains, List.elem_iff]

/-- C8 counterexample: at empty content the claim fails — no temporary file
is written (and no checker runs) even though the check oracle would exit 0;
the function instead returns `valid = false` immediately. -/
theorem c8_counterexample :
    ¬ ((validate_script [] (.exits 0 [] [])).2.tempWritten = some []) ∧
    (validate_script [] (.exits 0 [] [])).1.1 = false := by
  constructor <;> decide

/-- C8 amended: for content with at least one non-whitespace character,
`validate_script_syntax` writes the raw content (unwrapped) to a temp file,
invokes `bash -n` with the fixed 10-second limit, returns `valid = true`
exactly when the check exits 0 and otherwise a non-empty diagnostic, and
deletes the temp file on every path; for blank content it instead returns
`(false, "Script content is empty")` without touching the filesystem. -/
theorem c8_validate_contract (content : List Char) (beh : SyntaxCheckOutcome)
    (h : pyStrip content ≠ []) :
    (validate_script content beh).2 = ⟨some content, true, true, some 10⟩ ∧
    ((validate_script content beh).1.1 = true ↔ ∃ out err, beh = .exits 0 out err) ∧
    ((validate_script content beh).1.1 = false → (validate_script content beh).1.2 ≠ []) := by
  cases beh with
  | exits code out err =>
    by_cases hc : code = 0
    · subst hc
      refine ⟨by simp [validate_script, h], ?_, ?_⟩
      · simp only [validate_script, h, if_neg, if_pos rfl]
        exact ⟨fun _ => ⟨out, err, rfl⟩, fun _ => by simp [validate_script, h]⟩
      · intro hfalse
        simp [validate_script, h] at hfalse
    · refine ⟨by simp [validate_script, h, hc], ?_, ?_⟩
      · constructor
        · intro htrue
          simp [validate_script, h, hc] at htrue
        · rintro ⟨o, e, heq⟩
          injection heq with h0
          exact absurd h0 hc
      · intro _
        by_cases he : pyStrip err = []
        · simp [validate_script, h, hc, he]
          decide
        · simp [validate_script, h, hc, he]
  | timedOutCheck =>
    refine ⟨by simp [validate_script, h], ?_, ?_⟩
    · constructor
      · intro htrue; simp [validate_script, h] at htrue
      · rintro ⟨o, e, heq⟩; cases heq
    · intro _
      simp [validate_script, h]
      decide
  | raises desc =>
    refine ⟨by simp [validate_script, h], ?_, ?_⟩
    · constructor
      · intro htrue; simp [validate_script, h] at htrue
      · rintro ⟨o, e, heq⟩; cases heq
    · intro _; simp [validate_script, h, str]

/-- Witness for the amended C8 at "echo hello" with a clean exit. -/
theorem c8_validate_contract_witness :
    (validate_script (str "echo hello") (.exits 0 [] [])).2 =
      ⟨some (str "echo hello"), true, true, some 10⟩ ∧
    (validate_script (str "echo hello") (.exits 0 [] [])).1.1 = true := by
  have h := c8_validate_contract (str "echo hello") (.exits 0 [] []) (by decide)
  exact ⟨h.1, h.2.1.mpr ⟨[], [], rfl⟩⟩

/-- The full header block of a prepared script as flat text: the interpreter
directive, the strict-mode preamble and cleanup trap, and the blank separator
line before the script content. -/
def headerText : List Char :=
  str "#!/bin/bash\n\n# Script execution safety measures\nset -euo pipefail  # Exit on error, undefined vars, pipe failures\n\n# Function to handle cleanup on exit\ncleanup() \x7b\n    echo \"Script execution finished\"\n\x7d\ntrap cleanup EXIT\n\n# Script content begins here\n\n"

set_option maxRecDepth 4000 in
/-- Joining the safety header with a blank line and a body is the flat
header text followed by the body. -/
theorem header_join (b : List Char) :
    joinNl (safety_header ++ [[], b]) = headerText ++ b := rfl

set_option maxRecDepth 8000 in
/-- C3 counterexample: the claim fails in two ways. A head line beginning
with the two-character marker `"#!"` but not with `"#!/"` is NOT stripped
(the source tests the three-character `"#!/"`), and the original content is
not appended verbatim (it is trimmed of trailing/leading whitespace
first). -/
theorem c3_counterexample :
    prepare_script (str "#!bash\necho hi") ≠ headerText ++ str "echo hi" ∧
    prepare_script (str "echo hi\n") ≠ headerText ++ str "echo hi\n" := by
  constructor <;> decide

/-- C3 amended: for every input, `_prepare_script` returns the fixed
interpreter directive and strict-mode preamble (the flat `headerText`,
ending in a blank separator line) followed by the input trimmed of leading
and trailing whitespace, whose head line is dropped exactly when the trimmed
input begins with the three-character marker `"#!/"`; nothing else about the
content is altered. -/
theorem c3_prepare_output_shape (content : List Char) :
    prepare_script content =
      headerText ++
        (if List.isPrefixOf (str "#!/") (pyStrip content) = true then
          removeFirstLine (pyStrip content)
        else pyStrip content) := by
  show joinNl (safety_header ++ [[],
      if List.isPrefixOf (str "#!/") (pyStrip content) = true then
        joinNl ((splitNl (pyStrip content)).drop 1)
      else pyStrip content]) = _
  rw [header_join, removeFirstLine]

set_option maxRecDepth 20000 in
/-- C4 counterexample: re-preparing the directive-stripped body of
`prepare_script`'s own output injects the strict-mode preamble a second
time. On `"echo hi"` the `set -euo pipefail` line occurs once after one
preparation but twice — not once — after re-preparation. -/
theorem c4_counterexample :
    countSubstr (str "set -euo pipefail") (prepare_script (str "echo hi")) = 1 ∧
    ¬ (countSubstr (str "set -euo pipefail")
        (prepare_script (removeFirstLine (prepare_script (str "echo hi")))) = 1) ∧
    countSubstr (str "set -euo pipefail")
        (prepare_script (removeFirstLine (prepare_script (str "echo hi")))) = 2 := by
  refine ⟨?_, ?_, ?_⟩ <;> decide

/-- `splitNl` never returns the empty list of pieces. -/
theorem splitNl_ne_nil (s : List Char) : splitNl s ≠ [] := by
  cases s with
  | nil => simp [splitNl]
  | cons c rest =>
    simp only [splitNl]
    by_cases h : c = '\n'
    · simp [h]
    · simp only [if_neg h]
      cases splitNl rest <;> simp

/-- Splitting on newlines and re-joining is the identity. -/
theorem joinNl_splitNl (s : List Char) : joinNl (splitNl s) = s := by
  induction s with
  | nil => rfl
  | cons c rest ih =>
    by_cases h : c = '\n'
    · subst h
      simp only [splitNl, if_pos rfl]
      cases hr : splitNl rest with
      | nil => exact absurd hr (splitNl_ne_nil rest)
      | cons a t =>
        rw [hr] at ih
        show joinNl ([] :: a :: t) = '\n' :: rest
        rw [show joinNl ([] :: a :: t) = [] ++ '\n' :: joinNl (a :: t) from rfl]
        rw [ih]
        rfl
    · simp only [splitNl, if_neg h]
      cases hr : splitNl rest with
      | nil => exact absurd hr (splitNl_ne_nil rest)
      | cons a t =>
        rw [hr] at ih
        cases t with
        | nil =>
          show joinNl [c :: a] = c :: rest
          have ha : a = rest := by
            rw [show joinNl [a] = a from rfl] at ih
            exact ih
          simp [joinNl, ha]
        | cons b t2 =>
          show joinNl ((c :: a) :: b :: t2) = c :: rest
          have ha : a ++ '\n' :: joinNl (b :: t2) = rest := by
            rw [show joinNl (a :: b :: t2) = a ++ '\n' :: joinNl (b :: t2) from rfl] at ih
            exact ih
          calc joinNl ((c :: a) :: b :: t2)
              = c :: (a ++ '\n' :: joinNl (b :: t2)) := rfl
            _ = c :: rest := by rw [ha]

/-- Splitting a newline-free chunk followed by a newline splits off exactly
that chunk. -/
theorem splitNl_append_newline (l₁ s : List Char) (h : ∀ a ∈ l₁, a ≠ '\n') :
    splitNl (l₁ ++ '\n' :: s) = l₁ :: splitNl s := by
  induction l₁ with
  | nil => simp [splitNl]
  | cons c t ih =>
    have hc : c ≠ '\n' := h c (List.mem_cons_self c t)
    have ht : ∀ a ∈ t, a ≠ '\n' := fun a ha => h a (List.mem_cons_of_mem c ha)
    rw [List.cons_append]
    simp only [splitNl]
    rw [ih ht]
    simp [hc]

/-- A non-empty `dropWhile` result starts with an element that fails the
predicate. -/
theorem dropWhile_head_not (p : Char → Bool) (l : List Char) :
    List.dropWhile p l = [] ∨
      ∃ a t, List.dropWhile p l = a :: t ∧ p a = false := by
  induction l with
  | nil => exact Or.inl rfl
  | cons c rest ih =>
    by_cases h : p c = true
    · simpa [List.dropWhile_cons, h] using ih
    · refine Or.inr ⟨c, rest, ?_, by simpa using h⟩
      simp [List.dropWhile_cons, h]

/-- `dropWhile` does not look past a leading element that fails the
predicate, even across an append. -/
theorem dropWhile_cons_append (p : Char → Bool) (a : Char) (t l₂ : List Char)
    (h : p a = false) :
    List.dropWhile p ((a :: t) ++ l₂) = (a :: t) ++ l₂ := by
  simp [List.dropWhile_cons, h]

/-- The safety header without its first two lines (directive and blank
line), as flat text, including the blank separator before the body. -/
def midText : List Char :=
  str "# Script execution safety measures\nset -euo pipefail  # Exit on error, undefined vars, pipe failures\n\n# Function to handle cleanup on exit\ncleanup() \x7b\n    echo \"Script execution finished\"\n\x7d\ntrap cleanup EXIT\n\n# Script content begins here\n\n"

/-- The tail of `midText` after its leading hash character. -/
def midTail : List Char :=
  str " Script execution safety measures\nset -euo pipefail  # Exit on error, undefined vars, pipe failures\n\n# Function to handle cleanup on exit\ncleanup() \x7b\n    echo \"Script execution finished\"\n\x7d\ntrap cleanup EXIT\n\n# Script content begins here\n\n"

set_option maxRecDepth 4000 in
/-- `midText` starts with a hash character. -/
theorem midText_cons : midText = '#' :: midTail := rfl

set_option maxRecDepth 4000 in
/-- A prepared body splits as the directive line plus the rest. -/
theorem header_split (b : List Char) :
    joinNl (safety_header ++ [[], b]) =
      str "#!/bin/bash" ++ '\n' :: joinNl (safety_header.drop 1 ++ [[], b]) := rfl

set_option maxRecDepth 4000 in
/-- The header without the directive line, flattened. -/
theorem mid_join (b : List Char) :
    joinNl (safety_header.drop 1 ++ [[], b]) = '\n' :: (midText ++ b) := rfl

set_option maxRecDepth 4000 in
/-- The header without directive and first blank line, flattened. -/
theorem mid_join2 (b : List Char) :
    joinNl (safety_header.drop 2 ++ [[], b]) = midText ++ b := rfl

/-- Trimming the directive-stripped body of a prepared script: the leading
newline goes, and the trailing end is already trimmed because the body ends
in the trimmed original content (assumed non-blank). -/
theorem pyStrip_body (c : List Char) (h : pyStrip c ≠ []) :
    pyStrip ('\n' :: (midText ++ pyStrip c)) = midText ++ pyStrip c := by
  have e1 : isPySpace '\n' = true := rfl
  have e2 : isPySpace '#' = false := rfl
  have hdrop : List.dropWhile isPySpace ('\n' :: (midText ++ pyStrip c))
      = midText ++ pyStrip c := by
    rw [midText_cons, List.cons_append]
    simp [List.dropWhile_cons, e1, e2]
  have hrev : (pyStrip c).reverse
      = List.dropWhile isPySpace ((List.dropWhile isPySpace c).reverse) := by
    simp [pyStrip]
  rcases dropWhile_head_not isPySpace ((List.dropWhile isPySpace c).reverse) with
    h0 | ⟨a, t, ha, hpa⟩
  · rw [← hrev] at h0
    exact absurd (List.reverse_eq_nil_iff.mp h0) h
  · have hsc : (pyStrip c).reverse = a :: t := by rw [hrev, ha]
    show ((List.dropWhile isPySpace
        ((List.dropWhile isPySpace ('\n' :: (midText ++ pyStrip c))).reverse))).reverse
      = midText ++ pyStrip c
    rw [hdrop, List.reverse_append, hsc,
      dropWhile_cons_append isPySpace a t midText.reverse hpa]
    rw [List.reverse_append, List.reverse_reverse, ← hsc, List.reverse_reverse]

/-- C4 amended: `_prepare_script` is NOT idempotent on directive-stripping.
For content that lacks an interpreter directive (trimmed content non-blank
and not starting with `"#!/"`), re-preparing the directive-stripped body of
its own output prepends the directive and the full strict-mode preamble a
second time: the result is the safety header followed by the previous body,
which itself still contains the preamble — so the `set -euo pipefail` line
and the cleanup trap appear twice. -/
theorem c4_reprepare_doubles_preamble (c : List Char)
    (h1 : pyStrip c ≠ [])
    (h2 : List.isPrefixOf (str "#!/") (pyStrip c) = false) :
    prepare_script (removeFirstLine (prepare_script c)) =
      joinNl (safety_header ++ [[], joinNl (safety_header.drop 2 ++ [[], pyStrip c])]) := by
  have hp : prepare_script c
      = str "#!/bin/bash" ++ '\n' :: joinNl (safety_header.drop 1 ++ [[], pyStrip c]) := by
    show joinNl (safety_header ++ [[],
        if List.isPrefixOf (str "#!/") (pyStrip c) = true then
          joinNl ((splitNl (pyStrip c)).drop 1)
        else pyStrip c]) = _
    rw [if_neg (by simp [h2]), header_split]
  have hb : removeFirstLine (prepare_script c)
      = joinNl (safety_header.drop 1 ++ [[], pyStrip c]) := by
    rw [removeFirstLine, hp, splitNl_append_newline _ _ (by decide), List.drop_one,
      List.tail_cons]
    exact joinNl_splitNl _
  rw [hb, mid_join]
  have hs := pyStrip_body c h1
  have hpre : List.isPrefixOf (str "#!/") (midText ++ pyStrip c) = false := rfl
  show joinNl (safety_header ++ [[],
      if List.isPrefixOf (str "#!/") (pyStrip ('\n' :: (midText ++ pyStrip c))) = true then
        joinNl ((splitNl (pyStrip ('\n' :: (midText ++ pyStrip c)))).drop 1)
      else pyStrip ('\n' :: (midText ++ pyStrip c))])
    = joinNl (safety_header ++ [[], joinNl (safety_header.drop 2 ++ [[], pyStrip c])])
  rw [hs, if_neg (by simp [hpre]), mid_join2]

/-- Witness for the amended C4 at concrete directive-free content. -/
theorem c4_reprepare_doubles_preamble_witness :
    prepare_script (removeFirstLine (prepare_script (str "ls -la"))) =
      joinNl (safety_header ++
        [[], joinNl (safety_header.drop 2 ++ [[], pyStrip (str "ls -la")])]) :=
  c4_reprepare_doubles_preamble (str "ls -la") (by decide) (by decide)
